import Mathlib

/-!
Verification of the boundary-defense core of `agent-trust-scan`.

The embedded code comes from `src/security.ts` (address classification via the
`ipaddr.js` library, and `validateDomain`) and `src/utils.ts` (`safeFetch`,
`readResponseText`).  External effects are made explicit:

* DNS resolution (`dns/promises.lookup` with `all: true`) is a parameter of
  type `Resolver := String → Except String (List String)`; an `Except.error`
  models a rejected lookup carrying the Node error code.
* The HTTP transport (`fetchWithTimeout`) is a parameter of type
  `Transport := String → Except String HttpResponse`; an error models a
  network/timeout failure.
* The `ipaddr.js` library (an npm dependency, not part of this repository) is
  embedded at the bit level from its documented special-range tables: parsing
  into a 32-bit (IPv4) or 128-bit (IPv6) natural number, then first-match
  classification against CIDR ranges.
* Exceptions are `Except`; JavaScript strings are `String`, with byte lengths
  modelled by `String.length` (chunks are treated as byte strings).

Address parsing is modelled for canonical textual forms: strict dotted-quad
decimal IPv4 and full RFC 4291 IPv6 text (hextets, one `::` compression,
optional embedded dotted-quad tail).  These are exactly the forms produced by
the OS resolver and by WHATWG URL host canonicalization, which are the only
sources of the strings that reach the classifier in this code base.
-/

deriving instance DecidableEq for Except

/-! ### List utilities used by the parsers -/

/-- Split a character list on a separator character (non-greedy, keeps empty
pieces), e.g. `splitOnC ':' "a::b"` gives `["a", "", "b"]`. -/
def splitOnC (sep : Char) : List Char → List (List Char)
  | [] => [[]]
  | c :: rest =>
    let r := splitOnC sep rest
    if c = sep then [] :: r
    else
      match r with
      | g :: gs => (c :: g) :: gs
      | [] => [[c]]

/-- Split at the first occurrence of a separator: `(before, some after)` if the
separator occurs, `(l, none)` otherwise. -/
def splitFirst (sep : Char) : List Char → List Char × Option (List Char)
  | [] => ([], none)
  | c :: rest =>
    if c = sep then ([], some rest)
    else
      let r := splitFirst sep rest
      (c :: r.1, r.2)

/-- Split at the first occurrence of a double colon `::`. -/
def splitDoubleColon : List Char → Option (List Char × List Char)
  | ':' :: ':' :: rest => some ([], rest)
  | c :: rest => (splitDoubleColon rest).map (fun p => (c :: p.1, p.2))
  | [] => none

/-! ### IPv4 textual parsing (strict dotted-quad decimal) -/

/-- Numeric value of a decimal digit character. -/
def digitVal (c : Char) : Nat := c.toNat - '0'.toNat

/-- Parse one decimal octet: 1–3 digits, no leading zero, value at most 255. -/
def parseOctet (l : List Char) : Option Nat :=
  let leadOk : Bool :=
    match l with
    | '0' :: _ :: _ => false
    | _ => true
  if l.length = 0 || 3 < l.length || !(l.all Char.isDigit) || !leadOk then none
  else
    let v := l.foldl (fun a c => a * 10 + digitVal c) 0
    if v ≤ 255 then some v else none

/-- Parse a dotted-quad IPv4 address into its 32-bit value. -/
def parseIPv4 (l : List Char) : Option Nat :=
  match splitOnC '.' l with
  | [a, b, c, d] =>
    match parseOctet a, parseOctet b, parseOctet c, parseOctet d with
    | some x, some y, some z, some w => some (((x * 256 + y) * 256 + z) * 256 + w)
    | _, _, _, _ => none
  | _ => none

/-! ### IPv6 textual parsing (RFC 4291 text with optional embedded IPv4) -/

/-- Numeric value of a hexadecimal digit character, if any. -/
def hexVal (c : Char) : Option Nat :=
  if c.isDigit then some (c.toNat - '0'.toNat)
  else if 'a' ≤ c ∧ c ≤ 'f' then some (c.toNat - 'a'.toNat + 10)
  else if 'A' ≤ c ∧ c ≤ 'F' then some (c.toNat - 'A'.toNat + 10)
  else none

/-- Fold hexadecimal digits into an accumulator, failing on a non-hex digit. -/
def parseHexDigits : List Char → Nat → Option Nat
  | [], acc => some acc
  | c :: rest, acc =>
    match hexVal c with
    | some v => parseHexDigits rest (acc * 16 + v)
    | none => none

/-- Parse one IPv6 group: 1–4 hexadecimal digits. -/
def parseHextet (l : List Char) : Option Nat :=
  if l.length = 0 || 4 < l.length then none else parseHexDigits l 0

/-- Parse a list of groups as plain hextets. -/
def parseHextets : List (List Char) → Option (List Nat)
  | [] => some []
  | g :: gs =>
    match parseHextet g, parseHextets gs with
    | some v, some r => some (v :: r)
    | _, _ => none

/-- Parse a list of groups where the final group may be an embedded dotted-quad
IPv4 address (contributing two hextets). -/
def parseTailGroups : List (List Char) → Option (List Nat)
  | [] => some []
  | [g] =>
    if g.contains '.' then (parseIPv4 g).map (fun n => [n / 65536, n % 65536])
    else (parseHextet g).map (fun v => [v])
  | g :: gs =>
    match parseHextet g, parseTailGroups gs with
    | some v, some r => some (v :: r)
    | _, _ => none

/-- Combine eight hextets into the 128-bit value. -/
def hextetsToNat (hs : List Nat) : Nat := hs.foldl (fun a h => a * 65536 + h) 0

/-- Parse an IPv6 address (no brackets, no zone) into its 128-bit value. -/
def parseIPv6 (l : List Char) : Option Nat :=
  match splitDoubleColon l with
  | some (left, right) =>
    if (splitDoubleColon right).isSome then none
    else
      let lgs := if left = [] then [] else splitOnC ':' left
      let rgs := if right = [] then [] else splitOnC ':' right
      match parseHextets lgs, parseTailGroups rgs with
      | some lh, some rh =>
        if lh.length + rh.length ≤ 7 then
          some (hextetsToNat (lh ++ List.replicate (8 - lh.length - rh.length) 0 ++ rh))
        else none
      | _, _ => none
  | none =>
    match parseTailGroups (splitOnC ':' l) with
    | some hs => if hs.length = 8 then some (hextetsToNat hs) else none
    | none => none

/-! ### The parsed-address data model (`ipaddr.parse` and `net.isIP`) -/

/-- A parsed IP address: a 32-bit or a 128-bit value.  Models the result of
`ipaddr.parse` (the kind plus the canonical fixed-width integer value). -/
inductive IPAddr where
  | v4 (value : Nat)
  | v6 (value : Nat)
deriving DecidableEq, Repr

/-- Models `ipaddr.parse` on canonical textual forms: dotted-quad IPv4, else
RFC 4291 IPv6 text; `none` models the thrown parse error. -/
def parseIP (s : String) : Option IPAddr :=
  match parseIPv4 s.data with
  | some n => some (.v4 n)
  | none => (parseIPv6 s.data).map IPAddr.v6

/-- Models Node's `net.isIP`: 4 for IPv4 text, 6 for IPv6 text, 0 otherwise. -/
def isIP (s : String) : Nat :=
  match parseIP s with
  | some (.v4 _) => 4
  | some (.v6 _) => 6
  | none => 0

/-! ### The `ipaddr.js` special-range tables, embedded at the bit level -/

/-- CIDR membership for a 32-bit value: the top `bits` bits equal those of
`base`. -/
def inRange4 (n base bits : Nat) : Bool := n / 2 ^ (32 - bits) = base / 2 ^ (32 - bits)

/-- CIDR membership for a 128-bit value. -/
def inRange6 (n base bits : Nat) : Bool := n / 2 ^ (128 - bits) = base / 2 ^ (128 - bits)

/-- The IPv4 range names of `ipaddr.js` (`IPv4.prototype.SpecialRanges`,
plus `unicast` for everything else). -/
inductive IPv4Range where
  | unspecified | broadcast | multicast | linkLocal | loopback
  | carrierGradeNat | privateRange | reserved | unicast
deriving DecidableEq, Repr

/-- Models `ipaddr.js` `IPv4.range()`: first-match classification against the
library's special-range table (`unspecified 0.0.0.0/8`, `broadcast
255.255.255.255/32`, `multicast 224.0.0.0/4`, `linkLocal 169.254.0.0/16`,
`loopback 127.0.0.0/8`, `carrierGradeNat 100.64.0.0/10`, `private 10.0.0.0/8,
172.16.0.0/12, 192.168.0.0/16`, `reserved 192.0.0.0/24, 192.0.2.0/24,
192.88.99.0/24, 198.18.0.0/15, 198.51.100.0/24, 203.0.113.0/24,
240.0.0.0/4`). -/
def ipv4Range (n : Nat) : IPv4Range :=
  if inRange4 n 0x00000000 8 then .unspecified
  else if n = 0xFFFFFFFF then .broadcast
  else if inRange4 n 0xE0000000 4 then .multicast
  else if inRange4 n 0xA9FE0000 16 then .linkLocal
  else if inRange4 n 0x7F000000 8 then .loopback
  else if inRange4 n 0x64400000 10 then .carrierGradeNat
  else if inRange4 n 0x0A000000 8 || inRange4 n 0xAC100000 12 || inRange4 n 0xC0A80000 16 then
    .privateRange
  else if inRange4 n 0xC0000000 24 || inRange4 n 0xC0000200 24 || inRange4 n 0xC0586300 24 ||
      inRange4 n 0xC6120000 15 || inRange4 n 0xC6336400 24 || inRange4 n 0xCB007100 24 ||
      inRange4 n 0xF0000000 4 then
    .reserved
  else .unicast

/-- The IPv6 range names of `ipaddr.js` (`IPv6.prototype.SpecialRanges`). -/
inductive IPv6Range where
  | unspecified | linkLocal | multicast | loopback | uniqueLocal
  | ipv4Mapped | rfc6145 | rfc6052 | sixToFour | teredo | reserved | unicast
deriving DecidableEq, Repr

/-- Models `ipaddr.js` `IPv6.range()`: first-match classification against the
library's special-range table (`unspecified ::/128`, `linkLocal fe80::/10`,
`multicast ff00::/8`, `loopback ::1/128`, `uniqueLocal fc00::/7`, `ipv4Mapped
::ffff:0:0/96`, `rfc6145 ::ffff:0:0:0/96`, `rfc6052 64:ff9b::/96`, `6to4
2002::/16`, `teredo 2001::/32`, `reserved 2001:db8::/32`). -/
def ipv6Range (n : Nat) : IPv6Range :=
  if n = 0 then .unspecified
  else if inRange6 n 0xfe800000000000000000000000000000 10 then .linkLocal
  else if inRange6 n 0xff000000000000000000000000000000 8 then .multicast
  else if n = 1 then .loopback
  else if inRange6 n 0xfc000000000000000000000000000000 7 then .uniqueLocal
  else if inRange6 n 0xffff00000000 96 then .ipv4Mapped
  else if inRange6 n 0xffff000000000000 96 then .rfc6145
  else if inRange6 n 0x0064ff9b000000000000000000000000 96 then .rfc6052
  else if inRange6 n 0x20020000000000000000000000000000 16 then .sixToFour
  else if inRange6 n 0x20010000000000000000000000000000 32 then .teredo
  else if inRange6 n 0x20010db8000000000000000000000000 32 then .reserved
  else .unicast

/-- Models `ipaddr.js` `IPv6.toIPv4Address().toString()`: render the low 32
bits of an IPv4-mapped address as a canonical dotted quad. -/
def ipv4ToString (n : Nat) : String :=
  Nat.repr (n / 2 ^ 24 % 256) ++ "." ++ Nat.repr (n / 2 ^ 16 % 256) ++ "." ++
    Nat.repr (n / 2 ^ 8 % 256) ++ "." ++ Nat.repr (n % 256)

/-! ### `src/security.ts`: the classifier -/

/-- `src/security.ts` `isPrivateOrReservedIPv4` (lines 24–47): parse; a
non-IPv4 kind is not blocked; otherwise block exactly the `ipaddr.js` range
names `private, loopback, linkLocal, broadcast, unspecified, reserved,
multicast, carrierGradeNat`; a parse failure fails safe (`true`). -/
def isPrivateOrReservedIPv4 (ip : String) : Bool :=
  match parseIP ip with
  | some (.v4 n) =>
    let range := ipv4Range n
    range = .privateRange || range = .loopback || range = .linkLocal ||
      range = .broadcast || range = .unspecified || range = .reserved ||
      range = .multicast || range = .carrierGradeNat
  | some (.v6 _) => false
  | none => true

/-- `src/security.ts` `isPrivateOrReservedIP` (lines 53–88): IPv4 goes through
`isPrivateOrReservedIPv4`; an IPv4-mapped IPv6 address is converted to its
embedded dotted quad and re-checked; genuine IPv6 blocks the range names
`loopback, linkLocal, uniqueLocal, unspecified, multicast, reserved`; a parse
failure fails safe (`true`). -/
def isPrivateOrReservedIP (ip : String) : Bool :=
  match parseIP ip with
  | some (.v4 _) => isPrivateOrReservedIPv4 ip
  | some (.v6 n) =>
    if ipv6Range n = .ipv4Mapped then
      isPrivateOrReservedIPv4 (ipv4ToString (n % 2 ^ 32))
    else
      let range := ipv6Range n
      range = .loopback || range = .linkLocal || range = .uniqueLocal ||
        range = .unspecified || range = .multicast || range = .reserved
  | none => true

/-! ### Spec-side range enumerations (for the refinement claim C2) -/

/-- Modelled from the spec's words (section 4.1 step 2): the non-Public IPv4
ranges the spec enumerates: `0.0.0.0/8, 10.0.0.0/8, 100.64.0.0/10,
127.0.0.0/8, 169.254.0.0/16, 172.16.0.0/12, 192.168.0.0/16,
255.255.255.255/32`. -/
def specNonPublicV4 (n : Nat) : Bool :=
  inRange4 n 0x00000000 8 || inRange4 n 0x0A000000 8 || inRange4 n 0x64400000 10 ||
    inRange4 n 0x7F000000 8 || inRange4 n 0xA9FE0000 16 || inRange4 n 0xAC100000 12 ||
    inRange4 n 0xC0A80000 16 || n = 0xFFFFFFFF

/-- Modelled from the spec's words (section 4.1 step 3): the non-Public
genuine-IPv6 ranges the spec enumerates: `::1/128, ::/128, fc00::/7,
fe80::/10, ff00::/8`. -/
def specNonPublicV6 (n : Nat) : Bool :=
  n = 1 || n = 0 || inRange6 n 0xfc000000000000000000000000000000 7 ||
    inRange6 n 0xfe800000000000000000000000000000 10 ||
    inRange6 n 0xff000000000000000000000000000000 8

/-- Modelled from the spec's words: the spec's non-Public predicate on a parsed
address (IPv4 and IPv4-mapped IPv6 through the 32-bit value, genuine IPv6
through the 128-bit ranges). -/
def specNonPublicAddr : IPAddr → Bool
  | .v4 n => specNonPublicV4 n
  | .v6 n => if n / 2 ^ 32 = 0xffff then specNonPublicV4 (n % 2 ^ 32) else specNonPublicV6 n

/-- The full IPv4 range set the code actually blocks: the spec's enumerated
ranges plus multicast `224.0.0.0/4` and the `ipaddr.js` reserved ranges
`192.0.0.0/24, 192.0.2.0/24, 192.88.99.0/24, 198.18.0.0/15, 198.51.100.0/24,
203.0.113.0/24, 240.0.0.0/4`. -/
def amendedNonPublicV4 (n : Nat) : Bool :=
  specNonPublicV4 n || inRange4 n 0xE0000000 4 || inRange4 n 0xC0000000 24 ||
    inRange4 n 0xC0000200 24 || inRange4 n 0xC0586300 24 || inRange4 n 0xC6120000 15 ||
    inRange4 n 0xC6336400 24 || inRange4 n 0xCB007100 24 || inRange4 n 0xF0000000 4

/-- The full genuine-IPv6 range set the code actually blocks: the spec's
enumerated ranges plus the `ipaddr.js` reserved range `2001:db8::/32`. -/
def amendedNonPublicV6 (n : Nat) : Bool :=
  specNonPublicV6 n || inRange6 n 0x20010db8000000000000000000000000 32

/-! ### A WHATWG-URL model for `new URL` as used by this code

`validateDomain` builds `new URL("https://" ++ domain)` and reads `pathname`,
`search`, `hash` and `hostname`; `safeFetch` builds `new URL(currentUrl)` and
reads `protocol` and `hostname`.  The model implements the authority / path /
query / fragment split, bracketed IPv6 hosts, the digits-only port rule
(at most 65535), ASCII hostname lowercasing and the forbidden-host-code-point
rejection.  It does not perform IDNA mapping, percent-decoding or IPv4/IPv6
host canonicalization; every claim below exercises hosts on which those are
the identity. -/

/-- Split at the first path delimiter (`/` or `\`, WHATWG treats both alike
for special schemes). -/
def splitFirstPath : List Char → List Char × Option (List Char)
  | [] => ([], none)
  | c :: rest =>
    if c = '/' || c = '\\' then ([], some rest)
    else
      let r := splitFirstPath rest
      (c :: r.1, r.2)

/-- ASCII characters allowed in a (non-bracketed) hostname: printable ASCII
minus WHATWG's forbidden host code points. -/
def hostCharOk (c : Char) : Bool :=
  c.toNat < 128 && 0x1F < c.toNat && c.toNat ≠ 0x7F &&
    !(['<', '>', '^', '|', '%', '[', ']', '@', ':', '/', '\\', '?', '#', ' '].contains c)

/-- Parse an optional port: empty means the scheme default; otherwise decimal
digits with value at most 65535 (anything else makes `new URL` throw). -/
def parsePort : List Char → Option (Option Nat)
  | [] => some none
  | ds =>
    if ds.all Char.isDigit then
      let v := ds.foldl (fun a c => a * 10 + digitVal c) 0
      if v ≤ 65535 then some (some v) else none
    else none

/-- Parse an authority `host[:port]`, with `[...]` IPv6 literals kept in
bracketed form exactly as WHATWG's `url.hostname` serializes them. -/
def parseAuthority (a : List Char) : Option (String × Option Nat) :=
  match a with
  | [] => none
  | '[' :: rest =>
    match splitFirst ']' rest with
    | (inside, some after) =>
      if (parseIPv6 inside).isSome then
        let host := "[" ++ String.mk inside ++ "]"
        match after with
        | [] => some (host, none)
        | ':' :: ds => (parsePort ds).map (fun p => (host, p))
        | _ => none
      else none
    | (_, none) => none
  | _ =>
    let hp := splitFirst ':' a
    if hp.1 ≠ [] ∧ hp.1.all hostCharOk then
      let host := String.mk (hp.1.map Char.toLower)
      match hp.2 with
      | none => some (host, none)
      | some ds => (parsePort ds).map (fun p => (host, p))
    else none

/-- The components of `new URL("https://" ++ domain)` that `validateDomain`
reads. -/
structure ParsedURL where
  hostname : String
  port : Option Nat
  pathname : String
  search : String
  hash : String
deriving DecidableEq, Repr

/-- Models `new URL("https://" ++ domain)`: fragment, then query, then path
are split off; the rest is the authority.  `none` models the thrown
`Invalid URL` error. -/
def parseHttpsDomain (domain : String) : Option ParsedURL :=
  let h := splitFirst '#' domain.data
  let q := splitFirst '?' h.1
  let p := splitFirstPath q.1
  match parseAuthority p.1 with
  | none => none
  | some (host, port) =>
    some { hostname := host, port := port,
           pathname := (match p.2 with | none => "/" | some rest => "/" ++ String.mk rest),
           search := (match q.2 with | none => "" | some [] => "" | some rest => "?" ++ String.mk rest),
           hash := (match h.2 with | none => "" | some [] => "" | some rest => "#" ++ String.mk rest) }

/-- The components of `new URL(currentUrl)` that `safeFetch` reads. -/
structure FullUrl where
  protocol : String
  hostname : String
deriving DecidableEq, Repr

/-- Scheme characters after the first (which must be a letter). -/
def schemeCharOk (c : Char) : Bool :=
  c.isAlpha || c.isDigit || c = '+' || c = '-' || c = '.'

/-- Models `new URL(url)` for the fields `safeFetch` reads.  A special
(`http`/`https`) URL must carry `://` and a valid authority; a non-special
scheme is accepted with an empty hostname (enough to reach `safeFetch`'s
scheme check, which then throws). -/
def parseFullUrl (s : String) : Option FullUrl :=
  match splitFirst ':' s.data with
  | (sch, some rest) =>
    if sch ≠ [] ∧ (sch.head?.map Char.isAlpha).getD false ∧ sch.all schemeCharOk then
      let proto := String.mk (sch.map Char.toLower) ++ ":"
      match rest with
      | '/' :: '/' :: rest2 =>
        let h := splitFirst '#' rest2
        let q := splitFirst '?' h.1
        let p := splitFirstPath q.1
        match parseAuthority p.1 with
        | some (host, _) => some { protocol := proto, hostname := host }
        | none => none
      | _ =>
        if proto = "http:" ∨ proto = "https:" then none
        else some { protocol := proto, hostname := "" }
    else none
  | (_, none) => none

/-- Models `new URL(location, currentUrl).toString()` for the forms the code
meets: an absolute location stands alone; otherwise it is grafted onto the
base URL's origin (an approximation of WHATWG relative resolution that ignores
the base path and port; the claims below only exercise absolute locations). -/
def resolveUrl (loc base : String) : Option String :=
  if (parseFullUrl loc).isSome then some loc
  else
    match loc.data with
    | '/' :: _ => (parseFullUrl base).map (fun u => u.protocol ++ "//" ++ u.hostname ++ loc)
    | _ => (parseFullUrl base).map (fun u => u.protocol ++ "//" ++ u.hostname ++ "/" ++ loc)

/-! ### `src/security.ts` `validateDomain` -/

/-- The DNS resolver (`dns/promises.lookup` with `all: true`): the list of
resolved address strings, or a Node error code on failure. -/
abbrev Resolver := String → Except String (List String)

/-- The `{ valid, reason? }` result object of `validateDomain`. -/
structure ValidationResult where
  valid : Bool
  reason : Option String
deriving DecidableEq, Repr

/-- The `invalidChars` list of `validateDomain` (line 100), in source order. -/
def invalidChars : List Char := ['#', '?', '/', '\\', ' ', '\t', '\n', '\r']

/-- ASCII lowercase of a string (models `String.prototype.toLowerCase` on the
ASCII hostnames this code handles). -/
def lowerStr (s : String) : String := String.mk (s.data.map Char.toLower)

/-- `src/security.ts` `validateDomain` (lines 98–174), with the DNS resolver
explicit.  Every rejection returns a structured `{ valid := false, reason }`;
the function is total (the code catches its two fallible steps, URL parsing
and DNS resolution). -/
def validateDomain (resolver : Resolver) (domain : String) : ValidationResult :=
  match invalidChars.find? (fun c => domain.data.contains c) with
  | some c => ⟨false, some ("Domain contains invalid character: " ++ String.mk [c])⟩
  | none =>
    if domain.data.any (fun c => c.toNat ≤ 0x1F || c.toNat = 0x7F) then
      ⟨false, some "Domain contains control characters"⟩
    else if domain.data.contains '@' then
      ⟨false, some "Domain contains userinfo (user:pass@host)"⟩
    else
      match parseHttpsDomain domain with
      | none => ⟨false, some "Invalid domain format"⟩
      | some u =>
        if u.pathname ≠ "/" then ⟨false, some "Domain contains path component"⟩
        else if u.search ≠ "" then ⟨false, some "Domain contains query string"⟩
        else if u.hash ≠ "" then ⟨false, some "Domain contains fragment"⟩
        else
          let hostname := u.hostname
          if isIP hostname ≠ 0 then
            if isPrivateOrReservedIP hostname then
              ⟨false, some ("Private or reserved IP address: " ++ hostname)⟩
            else ⟨true, none⟩
          else if lowerStr hostname = "localhost" then
            ⟨false, some "localhost is not allowed"⟩
          else
            match resolver hostname with
            | .ok addresses =>
              match addresses.find? (fun a => isPrivateOrReservedIP a) with
              | some a =>
                ⟨false, some ("Domain " ++ hostname ++ " resolves to private/reserved IP: " ++ a)⟩
              | none => ⟨true, none⟩
            | .error code =>
              ⟨false, some ("DNS lookup failed for " ++ hostname ++ ": " ++ code)⟩

/-! ### `src/utils.ts` `safeFetch` -/

/-- The fields of a fetched `Response` that `safeFetch` reads, plus the body
handed to the caller. -/
structure HttpResponse where
  status : Nat
  location : Option String
  body : String
deriving DecidableEq, Repr

/-- The HTTP transport (`fetchWithTimeout`): a response, or a thrown
network/timeout error. -/
abbrev Transport := String → Except String HttpResponse

/-- A `safeFetch` run: the log of URLs for which an HTTP request was actually
issued (the network round-trips, in order), and the outcome. -/
abbrev FetchResult := List String × Except String HttpResponse

/-- The body of `safeFetch`'s `while (redirectCount <= maxRedirects)` loop
(`src/utils.ts` lines 130–186), as fuel recursion: the fuel starts at
`maxRedirects + 1` and the zero-fuel case is the dead `Unexpected redirect
loop` throw after the loop.  Each iteration parses the current URL, enforces
the scheme allow-list, resolves the hostname and classifies every address
before issuing the request; a redirect status requires a `Location` header,
bounds the hop counter and loops on the resolved target. -/
def safeFetchLoop (resolver : Resolver) (transport : Transport) (maxRedirects : Nat) :
    Nat → String → Nat → FetchResult
  | 0, _, _ => ([], .error "Unexpected redirect loop")
  | fuel + 1, currentUrl, redirectCount =>
    match parseFullUrl currentUrl with
    | none => ([], .error "Invalid URL")
    | some u =>
      if ¬(u.protocol = "http:" ∨ u.protocol = "https:") then
        ([], .error ("Unsafe URL scheme: " ++ u.protocol))
      else
        match resolver u.hostname with
        | .error code =>
          ([], .error (if code = "ENOTFOUND" ∨ code = "EAI_AGAIN" then
            "DNS lookup failed for " ++ u.hostname else code))
        | .ok addresses =>
          match addresses.find? (fun a => isPrivateOrReservedIP a) with
          | some a => ([], .error ("URL resolves to private/reserved IP: " ++ a))
          | none =>
            match transport currentUrl with
            | .error e => ([currentUrl], .error e)
            | .ok response =>
              if 300 ≤ response.status ∧ response.status < 400 then
                match response.location with
                | none => ([currentUrl], .error "Redirect response missing Location header")
                | some location =>
                  if redirectCount + 1 > maxRedirects then
                    ([currentUrl],
                      .error ("Too many redirects (max: " ++ Nat.repr maxRedirects ++ ")"))
                  else
                    match resolveUrl location currentUrl with
                    | none => ([currentUrl], .error "Invalid URL")
                    | some nextUrl =>
                      let r := safeFetchLoop resolver transport maxRedirects fuel nextUrl
                        (redirectCount + 1)
                      (currentUrl :: r.1, r.2)
              else ([currentUrl], .ok response)

/-- `src/utils.ts` `safeFetch` (lines 118–187): run the redirect loop from the
given URL with hop counter 0.  The `timeoutMs` argument only parameterizes the
transport and is absorbed into the `Transport` function. -/
def safeFetch (resolver : Resolver) (transport : Transport) (url : String)
    (maxRedirects : Nat := 5) : FetchResult :=
  safeFetchLoop resolver transport maxRedirects (maxRedirects + 1) url 0

/-! ### `src/utils.ts` `readResponseText` -/

/-- Maximum response body size in bytes (256 KiB), `src/utils.ts` line 5. -/
def MAX_RESPONSE_SIZE : Nat := 256 * 1024

/-- The parts of a `Response` that `readResponseText` reads: the
`Content-Length` header (as parsed by `parseInt`, `none` when absent), the
chunk stream of `response.body` (`none` when no streaming interface exists),
and the `response.text()` fallback used for synthetic test responses.  Chunks
are byte strings; `String.length` models the chunk's byte count. -/
structure BodyResponse where
  contentLength : Option Nat
  chunks : Option (List String)
  fallbackText : String
deriving DecidableEq, Repr

/-- The message thrown when the running stream total exceeds the ceiling. -/
def exceededMsg (total : Nat) : String :=
  "Response exceeded size limit: " ++ Nat.repr total ++ " bytes (max: " ++
    Nat.repr MAX_RESPONSE_SIZE ++ ")"

/-- The streaming loop of `readResponseText` (lines 24–34): accumulate chunks
with a running byte total and throw the instant the total exceeds the
ceiling. -/
def readChunksLoop : List String → Nat → Except String (List String)
  | [], _ => .ok []
  | c :: rest, totalSize =>
    let t := totalSize + c.length
    if t > MAX_RESPONSE_SIZE then .error (exceededMsg t)
    else (readChunksLoop rest t).map (fun cs => c :: cs)

/-- `src/utils.ts` `readResponseText` (lines 11–57): reject a declared
over-ceiling `Content-Length` before touching the body; otherwise stream with
the running-total check and decode the collected chunks (`TextDecoder` on the
concatenation, modelled by `String.join`); without a streaming interface fall
back to `response.text()` with an after-the-fact length check. -/
def readResponseText (r : BodyResponse) : Except String String :=
  match r.contentLength with
  | some n =>
    if n > MAX_RESPONSE_SIZE then
      .error ("Response too large: " ++ Nat.repr n ++ " bytes (max: " ++
        Nat.repr MAX_RESPONSE_SIZE ++ ")")
    else
      match r.chunks with
      | some cs => (readChunksLoop cs 0).map String.join
      | none =>
        if r.fallbackText.length > MAX_RESPONSE_SIZE then
          .error (exceededMsg r.fallbackText.length)
        else .ok r.fallbackText
  | none =>
    match r.chunks with
    | some cs => (readChunksLoop cs 0).map String.join
    | none =>
      if r.fallbackText.length > MAX_RESPONSE_SIZE then
        .error (exceededMsg r.fallbackText.length)
      else .ok r.fallbackText

/-- Total byte length of a chunk stream. -/
def sumLens (cs : List String) : Nat := (cs.map String.length).sum

/-! ### Concrete resolvers and transports for the redirect scenarios -/

/-- A resolver for the redirect scenarios: a public first hop, an
internal-metadata host answering with the link-local `169.254.169.254`, and a
public self-redirecting host. -/
def demoResolver : Resolver := fun h =>
  if h = "start.example" then .ok ["93.184.216.34"]
  else if h = "metadata.internal" then .ok ["169.254.169.254"]
  else if h = "loop.example" then .ok ["1.2.3.4"]
  else .error "ENOTFOUND"

/-- A transport whose first hop answers 302 with a `Location` pointing at the
metadata host, which would answer 200 with a body. -/
def demoTransport : Transport := fun u =>
  if u = "http://start.example/" then .ok ⟨302, some "http://metadata.internal/", ""⟩
  else if u = "http://metadata.internal/" then .ok ⟨200, none, "secret"⟩
  else .error "ECONNREFUSED"

/-- A transport that answers every request with a 302 back to the same URL:
an endless redirect chain. -/
def loopTransport : Transport := fun _ => .ok ⟨302, some "http://loop.example/", ""⟩

/-- A transport that answers 302 with no `Location` header. -/
def noLocTransport : Transport := fun _ => .ok ⟨302, none, ""⟩

/-- A 262145-byte chunk (one byte over the ceiling), for the reader
scenarios. -/
def overChunk : String := String.mk (List.replicate 262145 'a')

/-- A 262144-byte chunk (exactly the ceiling), for the reader scenarios. -/
def boundaryChunk : String := String.mk (List.replicate 262144 'a')

/-- What it means for a URL to have been cleared for an HTTP request: it
parses, and every address the resolver returned for its hostname is Public
(not blocked by the classifier). -/
def hopCleared (resolver : Resolver) (u : String) : Prop :=
  ∃ pu addrs, parseFullUrl u = some pu ∧ resolver pu.hostname = .ok addrs ∧
    ∀ a ∈ addrs, isPrivateOrReservedIP a = false


/-! ### Helper lemmas: the bounded body reader -/

lemma MAX_eq : MAX_RESPONSE_SIZE = 262144 := rfl

lemma overChunk_length : overChunk.length = 262145 := by
  show (List.replicate 262145 'a').length = 262145
  rw [List.length_replicate]

lemma boundaryChunk_length : boundaryChunk.length = 262144 := by
  show (List.replicate 262144 'a').length = 262144
  rw [List.length_replicate]

lemma readChunksLoop_nil (t : Nat) : readChunksLoop [] t = .ok [] := rfl

lemma readChunksLoop_cons (c : String) (rest : List String) (t : Nat) :
    readChunksLoop (c :: rest) t =
      (if t + c.length > MAX_RESPONSE_SIZE then .error (exceededMsg (t + c.length))
       else (readChunksLoop rest (t + c.length)).map (fun cs => c :: cs)) := rfl

lemma sumLens_nil : sumLens [] = 0 := rfl

lemma sumLens_cons (c : String) (cs : List String) :
    sumLens (c :: cs) = c.length + sumLens cs := by
  simp [sumLens]

lemma readChunksLoop_ok (cs : List String) :
    ∀ t, t + sumLens cs ≤ MAX_RESPONSE_SIZE → readChunksLoop cs t = .ok cs := by
  induction cs with
  | nil => intro t _; rfl
  | cons c rest ih =>
    intro t h
    rw [sumLens_cons] at h
    rw [readChunksLoop_cons, if_neg (by omega), ih (t + c.length) (by omega)]
    rfl

lemma readChunksLoop_first_exceed (c : String) (rest : List String) :
    ∀ (cs : List String) (t : Nat), t + sumLens cs ≤ MAX_RESPONSE_SIZE →
      MAX_RESPONSE_SIZE < t + sumLens cs + c.length →
      readChunksLoop (cs ++ c :: rest) t = .error (exceededMsg (t + sumLens cs + c.length)) := by
  intro cs
  induction cs with
  | nil =>
    intro t h1 h2
    rw [sumLens_nil] at h2 ⊢
    rw [List.nil_append, readChunksLoop_cons, if_pos (by omega), Nat.add_zero]
  | cons d ds ih =>
    intro t h1 h2
    rw [sumLens_cons] at h1 h2 ⊢
    rw [List.cons_append, readChunksLoop_cons, if_neg (by omega),
      ih (t + d.length) (by omega) (by omega)]
    have : t + d.length + sumLens ds + c.length = t + (d.length + sumLens ds) + c.length := by
      omega
    rw [this]
    rfl

lemma readChunksLoop_exceed_exists :
    ∀ (cs : List String) (t : Nat), t ≤ MAX_RESPONSE_SIZE →
      MAX_RESPONSE_SIZE < t + sumLens cs → ∃ e, readChunksLoop cs t = .error e := by
  intro cs
  induction cs with
  | nil =>
    intro t h1 h2
    rw [sumLens_nil] at h2
    omega
  | cons d ds ih =>
    intro t h1 h2
    rw [sumLens_cons] at h2
    rw [readChunksLoop_cons]
    by_cases hd : t + d.length > MAX_RESPONSE_SIZE
    · exact ⟨_, by rw [if_pos hd]⟩
    · obtain ⟨e, he⟩ := ih (t + d.length) (by omega) (by omega)
      exact ⟨e, by rw [if_neg hd, he]; rfl⟩

lemma readResponseText_someCL (n : Nat) (cs : List String) (fb : String) :
    readResponseText ⟨some n, some cs, fb⟩ =
      (if n > MAX_RESPONSE_SIZE then
        .error ("Response too large: " ++ Nat.repr n ++ " bytes (max: " ++
          Nat.repr MAX_RESPONSE_SIZE ++ ")")
      else (readChunksLoop cs 0).map String.join) := rfl

lemma readResponseText_noneCL (cs : List String) (fb : String) :
    readResponseText ⟨none, some cs, fb⟩ = (readChunksLoop cs 0).map String.join := rfl

lemma readResponseText_someCL_fallback (n : Nat) (fb : String) :
    readResponseText ⟨some n, none, fb⟩ =
      (if n > MAX_RESPONSE_SIZE then
        .error ("Response too large: " ++ Nat.repr n ++ " bytes (max: " ++
          Nat.repr MAX_RESPONSE_SIZE ++ ")")
      else if fb.length > MAX_RESPONSE_SIZE then .error (exceededMsg fb.length)
      else .ok fb) := rfl

lemma readResponseText_over (n : Nat) (ch : Option (List String)) (fb : String)
    (hn : n > MAX_RESPONSE_SIZE) :
    readResponseText ⟨some n, ch, fb⟩ =
      .error ("Response too large: " ++ Nat.repr n ++ " bytes (max: " ++
        Nat.repr MAX_RESPONSE_SIZE ++ ")") := by
  cases ch with
  | none => rw [readResponseText_someCL_fallback, if_pos hn]
  | some cs => rw [readResponseText_someCL, if_pos hn]

/-! ### Claim theorems: the classifier (C3, C4) -/

/-- C3: classification is a function of the parsed address value alone — any
two textual spellings that parse to the same 32-bit or 128-bit value classify
identically; in particular the three spellings of `::ffff:127.0.0.1` all
classify equal (and non-Public, i.e. blocked). -/
theorem classify_textual_equivalence :
    (∀ s t a, parseIP s = some a → parseIP t = some a →
      isPrivateOrReservedIP s = isPrivateOrReservedIP t) ∧
    isPrivateOrReservedIP "::ffff:127.0.0.1" = isPrivateOrReservedIP "0:0:0:0:0:ffff:7f00:1" ∧
    isPrivateOrReservedIP "0:0:0:0:0:ffff:7f00:1" =
      isPrivateOrReservedIP "0000:0000:0000:0000:0000:ffff:7f00:0001" ∧
    isPrivateOrReservedIP "::ffff:127.0.0.1" = true := by
  refine ⟨?_, by decide, by decide, by decide⟩
  intro s t a hs ht
  cases a with
  | v4 n =>
    unfold isPrivateOrReservedIP isPrivateOrReservedIPv4
    rw [hs, ht]
  | v6 n =>
    unfold isPrivateOrReservedIP
    rw [hs, ht]

/-- C3 witness: the determinism part applied at two concrete spellings of the
loopback-mapped address. -/
theorem classify_textual_equivalence_witness :
    isPrivateOrReservedIP "::ffff:127.0.0.1" = isPrivateOrReservedIP "::ffff:7f00:1" :=
  classify_textual_equivalence.1 "::ffff:127.0.0.1" "::ffff:7f00:1"
    (IPAddr.v6 0xffff7f000001) (by decide) (by decide)

/-- C4: a string that fails to parse as an IPv4 or IPv6 address is classified
non-Public (blocked): the catch branches return `true`, never defaulting to
Public on unparseable input. -/
theorem classify_unparseable_fail_safe (s : String) (h : parseIP s = none) :
    isPrivateOrReservedIP s = true := by
  unfold isPrivateOrReservedIP
  rw [h]

/-- C4 witness: a concrete unparseable input is blocked. -/
theorem classify_unparseable_fail_safe_witness :
    parseIP "metadata.google.internal" = none ∧
      isPrivateOrReservedIP "metadata.google.internal" = true :=
  ⟨by decide, classify_unparseable_fail_safe "metadata.google.internal" (by decide)⟩

/-! ### Claim theorems: the bounded body reader (C7, C9) -/

/-- C7: the 256 KiB ceiling is enforced: a declared over-ceiling
`Content-Length` rejects before any of the body is read (the result does not
depend on the body fields at all); while streaming, the read throws at the
first chunk that pushes the running total over the ceiling, whatever the rest
of the stream holds; and any stream whose total exceeds the ceiling yields an
error, never a returned text. -/
theorem readResponseText_enforces_ceiling :
    (∀ (r : BodyResponse) (n : Nat), r.contentLength = some n →
      MAX_RESPONSE_SIZE < n →
      readResponseText r = .error ("Response too large: " ++ Nat.repr n ++
        " bytes (max: " ++ Nat.repr MAX_RESPONSE_SIZE ++ ")")) ∧
    (∀ (cl : Option Nat) (fb : String) (cs : List String) (c : String) (rest : List String),
      (∀ n, cl = some n → n ≤ MAX_RESPONSE_SIZE) →
      sumLens cs ≤ MAX_RESPONSE_SIZE →
      MAX_RESPONSE_SIZE < sumLens cs + c.length →
      readResponseText ⟨cl, some (cs ++ c :: rest), fb⟩ =
        .error (exceededMsg (sumLens cs + c.length))) ∧
    (∀ (r : BodyResponse) (cs : List String), r.chunks = some cs →
      MAX_RESPONSE_SIZE < sumLens cs → ∃ e, readResponseText r = .error e) := by
  refine ⟨?_, ?_, ?_⟩
  · intro r n hcl hn
    obtain ⟨cl, ch, fb⟩ := r
    simp only at hcl
    subst hcl
    exact readResponseText_over n ch fb hn
  · intro cl fb cs c rest hcl hsum hexc
    have hloop := readChunksLoop_first_exceed c rest cs 0 (by omega) (by omega)
    rw [Nat.zero_add] at hloop
    cases cl with
    | none =>
      rw [readResponseText_noneCL, hloop]
      rfl
    | some n =>
      rw [readResponseText_someCL, if_neg (by have := hcl n rfl; omega), hloop]
      rfl
  · intro r cs hcs hexc
    obtain ⟨e, he⟩ := readChunksLoop_exceed_exists cs 0 (by rw [MAX_eq]; omega)
      (by omega)
    obtain ⟨cl, ch, fb⟩ := r
    simp only at hcs
    subst hcs
    cases cl with
    | none =>
      exact ⟨e, by rw [readResponseText_noneCL, he]; rfl⟩
    | some n =>
      by_cases hn : n > MAX_RESPONSE_SIZE
      · exact ⟨_, readResponseText_over n _ fb hn⟩
      · exact ⟨e, by rw [readResponseText_someCL, if_neg hn, he]; rfl⟩

/-- C7 witness: the content-length short-circuit and the streaming throw at
concrete inputs (a single chunk one byte over the ceiling). -/
theorem readResponseText_enforces_ceiling_witness :
    readResponseText ⟨some 262145, some ["abc"], ""⟩ =
      .error ("Response too large: " ++ Nat.repr 262145 ++ " bytes (max: " ++
        Nat.repr MAX_RESPONSE_SIZE ++ ")") ∧
    readResponseText ⟨none, some ([] ++ overChunk :: []), ""⟩ =
      .error (exceededMsg (sumLens [] + overChunk.length)) := by
  constructor
  · exact readResponseText_enforces_ceiling.1 ⟨some 262145, some ["abc"], ""⟩ 262145 rfl
      (by rw [MAX_eq]; omega)
  · exact readResponseText_enforces_ceiling.2.1 none "" [] overChunk []
      (by intro n hn; cases hn) (by rw [sumLens_nil, MAX_eq]; omega)
      (by rw [sumLens_nil, overChunk_length, MAX_eq]; omega)

/-- C9: the ceiling is boundary-inclusive for streamed responses: when the
declared `Content-Length` (if any) is at most 262144 and the chunk byte total
is at most 262144, the reader returns the full decoded text (the decoded
concatenation of all chunks) without an error. -/
theorem readResponseText_boundary_inclusive (r : BodyResponse) (cs : List String)
    (hcs : r.chunks = some cs)
    (hcl : ∀ n, r.contentLength = some n → n ≤ MAX_RESPONSE_SIZE)
    (hsum : sumLens cs ≤ MAX_RESPONSE_SIZE) :
    readResponseText r = .ok (String.join cs) := by
  have hloop := readChunksLoop_ok cs 0 (by omega)
  obtain ⟨cl, ch, fb⟩ := r
  simp only at hcs hcl
  subst hcs
  cases cl with
  | none =>
    rw [readResponseText_noneCL, hloop]
    rfl
  | some n =>
    rw [readResponseText_someCL, if_neg (by have := hcl n rfl; omega), hloop]
    rfl

/-- C9 witness: a stream of exactly 262144 bytes with a declared
`Content-Length` of exactly 262144 is returned in full. -/
theorem readResponseText_boundary_inclusive_witness :
    readResponseText ⟨some 262144, some [boundaryChunk], ""⟩ =
      .ok (String.join [boundaryChunk]) :=
  readResponseText_boundary_inclusive ⟨some 262144, some [boundaryChunk], ""⟩ [boundaryChunk]
    rfl (by intro n hn; cases hn; rw [MAX_eq])
    (by rw [sumLens_cons, sumLens_nil, boundaryChunk_length, MAX_eq])

/-! ### Helper lemmas: the safeFetch redirect loop -/

lemma safeFetchLoop_log_length (resolver : Resolver) (transport : Transport) (maxR : Nat) :
    ∀ (fuel : Nat) (url : String) (count : Nat),
      (safeFetchLoop resolver transport maxR fuel url count).1.length ≤ fuel := by
  intro fuel
  induction fuel with
  | zero => intro url count; simp [safeFetchLoop]
  | succ f ih =>
    intro url count
    unfold safeFetchLoop
    repeat' split
    all_goals simp_all

lemma safeFetchLoop_log_sound (resolver : Resolver) (transport : Transport) (maxR : Nat) :
    ∀ (fuel : Nat) (url : String) (count : Nat) (u : String),
      u ∈ (safeFetchLoop resolver transport maxR fuel url count).1 →
      hopCleared resolver u := by
  intro fuel
  induction fuel with
  | zero => intro url count u hu; simp [safeFetchLoop] at hu
  | succ f ih =>
    intro url count u hu
    unfold safeFetchLoop at hu
    split at hu
    · simp at hu
    next pu hpu =>
      split at hu
      · simp at hu
      next hscheme =>
        split at hu
        · simp at hu
        next addrs haddrs =>
          split at hu
          next a ha => simp at hu
          next hfind =>
            have hcleared : hopCleared resolver url := by
              refine ⟨pu, addrs, hpu, haddrs, ?_⟩
              intro a ha
              have := List.find?_eq_none.mp hfind a ha
              simpa using this
            split at hu
            next e he =>
              simp at hu
              subst hu
              exact hcleared
            next resp hresp =>
              split at hu
              · split at hu
                · simp at hu; subst hu; exact hcleared
                next loc hloc =>
                  split at hu
                  · simp at hu; subst hu; exact hcleared
                  · split at hu
                    · simp at hu; subst hu; exact hcleared
                    next nextUrl hnext =>
                      simp only [List.mem_cons] at hu
                      rcases hu with rfl | hu
                      · exact hcleared
                      · exact ih nextUrl (count + 1) u hu
              · simp at hu; subst hu; exact hcleared

lemma safeFetchLoop_ok_sound (resolver : Resolver) (transport : Transport) (maxR : Nat) :
    ∀ (fuel : Nat) (url : String) (count : Nat) (resp : HttpResponse),
      (safeFetchLoop resolver transport maxR fuel url count).2 = .ok resp →
      ¬(300 ≤ resp.status ∧ resp.status < 400) ∧
        ∃ u, u ∈ (safeFetchLoop resolver transport maxR fuel url count).1 ∧
          transport u = .ok resp := by
  intro fuel
  induction fuel with
  | zero => intro url count resp h; simp [safeFetchLoop] at h
  | succ f ih =>
    intro url count resp
    unfold safeFetchLoop
    split
    · intro h; simp at h
    next pu hpu =>
      split
      · intro h; simp at h
      next hscheme =>
        split
        next code hcode => intro h; simp at h
        next addrs haddrs =>
          split
          next a ha => intro h; simp at h
          next hfind =>
            split
            next e he => intro h; simp at h
            next resp0 hresp0 =>
              split
              next hredir =>
                split
                next hloc => intro h; simp at h
                next loc hloc =>
                  split
                  next hcount => intro h; simp at h
                  next hcount =>
                    split
                    next hres => intro h; simp at h
                    next nextUrl hres =>
                      intro h
                      simp only at h
                      obtain ⟨hst, u, hu, htr⟩ := ih nextUrl (count + 1) resp h
                      exact ⟨hst, u, by simp only [List.mem_cons]; exact Or.inr hu, htr⟩
              next hredir =>
                intro h
                simp only at h
                cases h
                refine ⟨hredir, url, by simp, hresp0⟩

/-! ### Claim theorems: the safeFetch redirect loop (C1, C6) -/

/-- C1: on every hop of the redirect loop (including hops reached through a
redirect) the hostname is resolved and every returned address classified
before the HTTP request is issued: every URL in the request log was cleared
(`hopCleared`); a returned response always comes from a cleared, non-redirect
hop, so no redirect hop's body is ever returned; and in the concrete
302-to-metadata scenario the fetch throws a policy error naming
`169.254.169.254` after a single round-trip, issuing no request to the second
hop. -/
theorem safeFetch_validates_every_hop :
    (∀ (resolver : Resolver) (transport : Transport) (url : String) (maxR : Nat) (u : String),
      u ∈ (safeFetch resolver transport url maxR).1 → hopCleared resolver u) ∧
    (∀ (resolver : Resolver) (transport : Transport) (url : String) (maxR : Nat)
      (resp : HttpResponse), (safeFetch resolver transport url maxR).2 = .ok resp →
      ¬(300 ≤ resp.status ∧ resp.status < 400) ∧
        ∃ u, u ∈ (safeFetch resolver transport url maxR).1 ∧ transport u = .ok resp) ∧
    safeFetch demoResolver demoTransport "http://start.example/" 5 =
      (["http://start.example/"],
        .error "URL resolves to private/reserved IP: 169.254.169.254") := by
  refine ⟨?_, ?_, by decide⟩
  · intro resolver transport url maxR u hu
    exact safeFetchLoop_log_sound resolver transport maxR (maxR + 1) url 0 u hu
  · intro resolver transport url maxR resp h
    exact safeFetchLoop_ok_sound resolver transport maxR (maxR + 1) url 0 resp h

/-- C1 witness: the per-hop guarantee applied at the one request the
metadata-redirect scenario issues. -/
theorem safeFetch_validates_every_hop_witness :
    hopCleared demoResolver "http://start.example/" :=
  safeFetch_validates_every_hop.1 demoResolver demoTransport "http://start.example/" 5
    "http://start.example/" (by decide)

/-- C6: the redirect loop issues at most `maxRedirects + 1` network
round-trips; a chain of six consecutive redirects against a maximum of five
throws `Too many redirects (max: 5)` after exactly six round-trips; and a
redirect without a `Location` header throws the missing-Location error after
one round-trip. -/
theorem safeFetch_redirect_bound :
    (∀ (resolver : Resolver) (transport : Transport) (url : String) (maxR : Nat),
      (safeFetch resolver transport url maxR).1.length ≤ maxR + 1) ∧
    safeFetch demoResolver loopTransport "http://loop.example/" 5 =
      (["http://loop.example/", "http://loop.example/", "http://loop.example/",
        "http://loop.example/", "http://loop.example/", "http://loop.example/"],
       .error "Too many redirects (max: 5)") ∧
    safeFetch demoResolver noLocTransport "http://start.example/" 5 =
      (["http://start.example/"], .error "Redirect response missing Location header") := by
  refine ⟨?_, by decide, by decide⟩
  intro resolver transport url maxR
  exact safeFetchLoop_log_length resolver transport maxR (maxR + 1) url 0

/-! ### Claim theorems: validateDomain result structure (C8) -/

/-- C8: `validateDomain` is a total function into the structured result type —
no input and no resolver behaviour escapes as an exception (its two fallible
steps, URL construction and DNS lookup, are caught in the source) — and the
`reason` field is populated exactly when `valid` is false: valid results
carry no reason. -/
theorem validateDomain_reason_iff_invalid (resolver : Resolver) (domain : String) :
    (validateDomain resolver domain).valid = true ↔
      (validateDomain resolver domain).reason = none := by
  unfold validateDomain
  repeat (any_goals (first | split | split_ifs))
  all_goals simp
  repeat (any_goals (first | split | split_ifs))
  all_goals simp

/-! ### Helper lemmas: the classifier range tables (for C2) -/

set_option maxRecDepth 4096 in
lemma octet_repr_roundtrip :
    ∀ x < 256, parseOctet (Nat.repr x).data = some x ∧
      (Nat.repr x).data.contains '.' = false := by decide

lemma splitOnC_cons (sep c : Char) (rest : List Char) :
    splitOnC sep (c :: rest) =
      (if c = sep then [] :: splitOnC sep rest
       else
        match splitOnC sep rest with
        | g :: gs => (c :: g) :: gs
        | [] => [[c]]) := rfl

lemma splitOnC_no_sep (sep : Char) (l : List Char) (h : l.contains sep = false) :
    splitOnC sep l = [l] := by
  induction l with
  | nil => rfl
  | cons c rest ih =>
    simp only [List.contains_cons, Bool.or_eq_false_iff] at h
    have hne : ¬(c = sep) := by
      intro hc
      subst hc
      simp at h
    rw [splitOnC_cons, if_neg hne, ih h.2]

lemma splitOnC_append (sep : Char) (l r : List Char) (h : l.contains sep = false) :
    splitOnC sep (l ++ sep :: r) = l :: splitOnC sep r := by
  induction l with
  | nil =>
    rw [List.nil_append, splitOnC_cons, if_pos rfl]
  | cons c rest ih =>
    simp only [List.contains_cons, Bool.or_eq_false_iff] at h
    have hne : ¬(c = sep) := by
      intro hc
      subst hc
      simp at h
    rw [List.cons_append, splitOnC_cons, if_neg hne, ih h.2]

lemma data_append (s t : String) : (s ++ t).data = s.data ++ t.data := by
  cases s
  cases t
  rfl

lemma parseIPv4_toString (m : Nat) (hm : m < 2 ^ 32) :
    parseIPv4 (ipv4ToString m).data = some m := by
  have h1 := octet_repr_roundtrip (m / 2 ^ 24 % 256) (Nat.mod_lt _ (by omega))
  have h2 := octet_repr_roundtrip (m / 2 ^ 16 % 256) (Nat.mod_lt _ (by omega))
  have h3 := octet_repr_roundtrip (m / 2 ^ 8 % 256) (Nat.mod_lt _ (by omega))
  have h4 := octet_repr_roundtrip (m % 256) (Nat.mod_lt _ (by omega))
  unfold ipv4ToString
  rw [data_append, data_append, data_append, data_append, data_append, data_append]
  simp only [show (".".data) = ['.'] from rfl, List.append_assoc, List.singleton_append,
    List.cons_append, List.nil_append]
  unfold parseIPv4
  rw [splitOnC_append _ _ _ h1.2, splitOnC_append _ _ _ h2.2, splitOnC_append _ _ _ h3.2,
    splitOnC_no_sep _ _ h4.2]
  simp only [h1.1, h2.1, h3.1, h4.1]
  congr 1
  omega

lemma isPrivateOrReservedIPv4_eq_amended {s : String} {n : Nat}
    (hp : parseIP s = some (.v4 n)) :
    isPrivateOrReservedIPv4 s = amendedNonPublicV4 n := by
  unfold isPrivateOrReservedIPv4
  rw [hp]
  simp only [ipv4Range, amendedNonPublicV4, specNonPublicV4]
  split_ifs <;> simp_all

set_option maxHeartbeats 2000000 in
lemma ipv6Range_mapped_iff (n : Nat) :
    ipv6Range n = .ipv4Mapped ↔ n / 2 ^ 32 = 0xffff := by
  constructor
  · intro h
    unfold ipv6Range at h
    split_ifs at h <;> simp_all [inRange6]
  · intro h
    unfold ipv6Range
    rw [if_neg (by omega), if_neg (by simp [inRange6]; omega),
      if_neg (by simp [inRange6]; omega), if_neg (by omega),
      if_neg (by simp [inRange6]; omega), if_pos (by simp [inRange6]; omega)]

lemma classifyV6_eq (s : String) (n : Nat) (hp : parseIP s = some (.v6 n)) :
    isPrivateOrReservedIP s =
      (if ipv6Range n = .ipv4Mapped then isPrivateOrReservedIPv4 (ipv4ToString (n % 2 ^ 32))
       else
        let range := ipv6Range n
        (range = IPv6Range.loopback || range = IPv6Range.linkLocal ||
          range = IPv6Range.uniqueLocal || range = IPv6Range.unspecified ||
          range = IPv6Range.multicast || range = IPv6Range.reserved)) := by
  unfold isPrivateOrReservedIP
  rw [hp]

set_option maxHeartbeats 2000000 in
lemma isPrivateOrReservedIP_v6_genuine {s : String} {n : Nat}
    (hp : parseIP s = some (.v6 n)) (hnm : n / 2 ^ 32 ≠ 0xffff) :
    isPrivateOrReservedIP s = amendedNonPublicV6 n := by
  rw [classifyV6_eq s n hp]
  rw [if_neg (fun hmap => hnm ((ipv6Range_mapped_iff n).mp hmap))]
  simp only [ipv6Range, amendedNonPublicV6, specNonPublicV6]
  split_ifs <;> simp_all [inRange6] <;> omega

lemma isPrivateOrReservedIP_v6_mapped {s : String} {n : Nat}
    (hp : parseIP s = some (.v6 n)) (hm : n / 2 ^ 32 = 0xffff) :
    isPrivateOrReservedIP s = amendedNonPublicV4 (n % 2 ^ 32) := by
  rw [classifyV6_eq s n hp]
  rw [if_pos ((ipv6Range_mapped_iff n).mpr hm)]
  exact isPrivateOrReservedIPv4_eq_amended (s := ipv4ToString (n % 2 ^ 32))
    (by unfold parseIP; rw [parseIPv4_toString _ (Nat.mod_lt _ (by norm_num))])

/-! ### Claim theorems: the classifier range set (C2) -/

/-- C2 counterexample: `224.0.0.1` parses as IPv4, lies outside every range
the spec enumerates (so the spec's list classifies it Public), yet the code
blocks it — `ipaddr.js` labels `224.0.0.0/4` `multicast` and the code treats
`multicast` as non-Public. -/
theorem classify_spec_ranges_counterexample :
    parseIP "224.0.0.1" = some (.v4 0xE0000001) ∧
    isPrivateOrReservedIP "224.0.0.1" = true ∧
    specNonPublicAddr (.v4 0xE0000001) = false := by decide

/-- C2 amended: for every parseable textual address, the classifier is
non-Public exactly on the spec's listed ranges EXTENDED by the further ranges
the `ipaddr.js` table names and the code blocks: for the IPv4 (and
IPv4-mapped) case additionally multicast `224.0.0.0/4` and the reserved
ranges `192.0.0.0/24, 192.0.2.0/24, 192.88.99.0/24, 198.18.0.0/15,
198.51.100.0/24, 203.0.113.0/24, 240.0.0.0/4`; for the genuine-IPv6 case
additionally the documentation range `2001:db8::/32`. -/
theorem classify_full_range_table (s : String) :
    (∀ n, parseIP s = some (.v4 n) → isPrivateOrReservedIP s = amendedNonPublicV4 n) ∧
    (∀ n, parseIP s = some (.v6 n) →
      isPrivateOrReservedIP s =
        (if n / 2 ^ 32 = 0xffff then amendedNonPublicV4 (n % 2 ^ 32)
         else amendedNonPublicV6 n)) := by
  constructor
  · intro n hp
    have hv4 : isPrivateOrReservedIP s = isPrivateOrReservedIPv4 s := by
      unfold isPrivateOrReservedIP
      rw [hp]
    rw [hv4]
    exact isPrivateOrReservedIPv4_eq_amended hp
  · intro n hp
    by_cases hm : n / 2 ^ 32 = 0xffff
    · rw [if_pos hm]
      exact isPrivateOrReservedIP_v6_mapped hp hm
    · rw [if_neg hm]
      exact isPrivateOrReservedIP_v6_genuine hp hm

/-- C2 witness: the amended range correspondence applied at the multicast
counterexample address and at a `2001:db8::/32` address. -/
theorem classify_full_range_table_witness :
    isPrivateOrReservedIP "224.0.0.1" = amendedNonPublicV4 0xE0000001 ∧
    isPrivateOrReservedIP "2001:db8::1" =
      (if (0x20010db8000000000000000000000001 : Nat) / 2 ^ 32 = 0xffff then
        amendedNonPublicV4 (0x20010db8000000000000000000000001 % 2 ^ 32)
       else amendedNonPublicV6 0x20010db8000000000000000000000001) :=
  ⟨(classify_full_range_table "224.0.0.1").1 0xE0000001 (by decide),
   (classify_full_range_table "2001:db8::1").2 0x20010db8000000000000000000000001 (by decide)⟩

/-! ### Claim theorems: validateDomain host policy (C5) -/

/-- C5: past the syntactic gates (character checks, URL shape, root path,
empty query and fragment), `validateDomain` decides on the extracted hostname
alone: a literal IP address is accepted exactly when the classifier does not
block it; otherwise (and excepting the syntactic `localhost` gate) the
hostname is resolved with all records requested and the domain is accepted
exactly when every returned address is un-blocked, any single blocked record
rejecting it and a resolver failure rejecting it with the DNS-failure reason;
concretely `validate("127.0.0.1")` is invalid naming the address and
`validate("8.8.8.8")` is valid. -/
theorem validateDomain_host_policy (resolver : Resolver) (domain : String) (u : ParsedURL)
    (h1 : invalidChars.find? (fun c => domain.data.contains c) = none)
    (h2 : domain.data.any (fun c => c.toNat ≤ 0x1F || c.toNat = 0x7F) = false)
    (h3 : domain.data.contains '@' = false)
    (h4 : parseHttpsDomain domain = some u)
    (h5 : u.pathname = "/") (h6 : u.search = "") (h7 : u.hash = "") :
    (isIP u.hostname ≠ 0 →
      validateDomain resolver domain =
        (if isPrivateOrReservedIP u.hostname then
          ⟨false, some ("Private or reserved IP address: " ++ u.hostname)⟩
        else ⟨true, none⟩)) ∧
    (isIP u.hostname = 0 → lowerStr u.hostname ≠ "localhost" →
      (∀ addresses, resolver u.hostname = .ok addresses →
        ((validateDomain resolver domain).valid = true ↔
          ∀ a ∈ addresses, isPrivateOrReservedIP a = false)) ∧
      (∀ code, resolver u.hostname = .error code →
        validateDomain resolver domain =
          ⟨false, some ("DNS lookup failed for " ++ u.hostname ++ ": " ++ code)⟩)) ∧
    validateDomain resolver "127.0.0.1" =
      ⟨false, some "Private or reserved IP address: 127.0.0.1"⟩ ∧
    validateDomain resolver "8.8.8.8" = ⟨true, none⟩ := by
  have hred : validateDomain resolver domain =
      (if isIP u.hostname ≠ 0 then
        (if isPrivateOrReservedIP u.hostname then
          ⟨false, some ("Private or reserved IP address: " ++ u.hostname)⟩
        else ⟨true, none⟩)
      else if lowerStr u.hostname = "localhost" then
        ⟨false, some "localhost is not allowed"⟩
      else
        match resolver u.hostname with
        | .ok addresses =>
          match addresses.find? (fun a => isPrivateOrReservedIP a) with
          | some a =>
            ⟨false, some ("Domain " ++ u.hostname ++ " resolves to private/reserved IP: " ++ a)⟩
          | none => ⟨true, none⟩
        | .error code =>
          ⟨false, some ("DNS lookup failed for " ++ u.hostname ++ ": " ++ code)⟩) := by
    simp only [validateDomain, h1, h2, h3, h4, h5, h6, h7]
    simp
  refine ⟨?_, ?_, by rfl, by rfl⟩
  · intro hip
    rw [hred, if_pos hip]
  · intro hip hlh
    constructor
    · intro addresses haddrs
      have hred2 : validateDomain resolver domain =
          (match addresses.find? (fun a => isPrivateOrReservedIP a) with
           | some a =>
             ⟨false, some ("Domain " ++ u.hostname ++ " resolves to private/reserved IP: " ++ a)⟩
           | none => (⟨true, none⟩ : ValidationResult)) := by
        simp only [validateDomain, h1, h2, h3, h4, h5, h6, h7, haddrs]
        simp [hip, hlh]
      rw [hred2]
      cases hf : addresses.find? (fun a => isPrivateOrReservedIP a) with
      | some a =>
        constructor
        · intro hv
          simp at hv
        · intro hall
          have hpa := List.find?_some hf
          rw [hall a (List.mem_of_find?_eq_some hf)] at hpa
          cases hpa
      | none =>
        constructor
        · intro _ a ha
          have := List.find?_eq_none.mp hf a ha
          simpa using this
        · intro _
          rfl
    · intro code hcode
      have hred3 : validateDomain resolver domain =
          ⟨false, some ("DNS lookup failed for " ++ u.hostname ++ ": " ++ code)⟩ := by
        simp only [validateDomain, h1, h2, h3, h4, h5, h6, h7, hcode]
        simp [hip, hlh]
      exact hred3

/-- C5 witness: the literal-IP branch applied at `127.0.0.1` (rejected with
the address in the reason) and `8.8.8.8` (accepted). -/
theorem validateDomain_host_policy_witness :
    validateDomain demoResolver "127.0.0.1" =
      ⟨false, some "Private or reserved IP address: 127.0.0.1"⟩ ∧
    validateDomain demoResolver "8.8.8.8" = ⟨true, none⟩ :=
  ⟨(validateDomain_host_policy demoResolver "127.0.0.1" ⟨"127.0.0.1", none, "/", "", ""⟩
      (by decide) (by decide) (by decide) (by decide) rfl rfl rfl).2.2.1,
   (validateDomain_host_policy demoResolver "8.8.8.8" ⟨"8.8.8.8", none, "/", "", ""⟩
      (by decide) (by decide) (by decide) (by decide) rfl rfl rfl).2.2.2⟩

/-! ### Helper lemmas: characters, splitting and URL parsing (for C10) -/

lemma not_mem_of_all {l : List Char} {P : Char → Bool}
    (hall : ∀ c ∈ l, P c = true) (c : Char) (hc : P c = false) : c ∉ l := by
  intro hm
  rw [hall c hm] at hc
  cases hc

lemma digit_toNat (x : Char) (hx : x.isDigit = true) : 48 ≤ x.toNat ∧ x.toNat ≤ 57 := by
  simp [Char.isDigit] at hx
  exact ⟨hx.1, hx.2⟩

lemma digit_not_ctrl (x : Char) (hx : x.isDigit = true) :
    (decide (x.toNat ≤ 31) || decide (x.toNat = 127)) = false := by
  obtain ⟨h1, h2⟩ := digit_toNat x hx
  simp only [Bool.or_eq_false_iff, decide_eq_false_iff_not]
  omega

lemma hostCharOk_not_ctrl (x : Char) (hx : hostCharOk x = true) :
    (decide (x.toNat ≤ 31) || decide (x.toNat = 127)) = false := by
  unfold hostCharOk at hx
  simp only [Bool.and_eq_true, decide_eq_true_eq] at hx
  simp only [Bool.or_eq_false_iff, decide_eq_false_iff_not]
  omega

lemma splitFirst_not_contains (sep : Char) (l : List Char) (h : sep ∉ l) :
    splitFirst sep l = (l, none) := by
  induction l with
  | nil => rfl
  | cons c rest ih =>
    simp only [List.mem_cons, not_or] at h
    unfold splitFirst
    rw [if_neg (fun hc => h.1 hc.symm), ih h.2]

lemma splitFirst_append_sep (sep : Char) (l t : List Char) (h : sep ∉ l) :
    splitFirst sep (l ++ sep :: t) = (l, some t) := by
  induction l with
  | nil =>
    rw [List.nil_append]
    unfold splitFirst
    rw [if_pos rfl]
  | cons c rest ih =>
    simp only [List.mem_cons, not_or] at h
    rw [List.cons_append]
    unfold splitFirst
    rw [if_neg (fun hc => h.1 hc.symm), ih h.2]

lemma splitFirstPath_not_contains (l : List Char) (h1 : '/' ∉ l) (h2 : '\\' ∉ l) :
    splitFirstPath l = (l, none) := by
  induction l with
  | nil => rfl
  | cons c rest ih =>
    simp only [List.mem_cons, not_or] at h1 h2
    unfold splitFirstPath
    rw [if_neg (by
        simp only [Bool.or_eq_true, decide_eq_true_eq, not_or]
        exact ⟨fun hc => h1.1 hc.symm, fun hc => h2.1 hc.symm⟩),
      ih h1.2 h2.2]

lemma parsePort_digits (pd : List Char) (hne : pd ≠ [])
    (hdig : ∀ c ∈ pd, c.isDigit = true)
    (hv : pd.foldl (fun a c => a * 10 + digitVal c) 0 ≤ 65535) :
    parsePort pd = some (some (pd.foldl (fun a c => a * 10 + digitVal c) 0)) := by
  cases pd with
  | nil => exact absurd rfl hne
  | cons c cs =>
    have hcons : parsePort (c :: cs) =
        (if (c :: cs).all Char.isDigit then
          (if (c :: cs).foldl (fun a c => a * 10 + digitVal c) 0 ≤ 65535 then
            some (some ((c :: cs).foldl (fun a c => a * 10 + digitVal c) 0))
          else none)
        else none) := rfl
    rw [hcons, if_pos (by exact List.all_eq_true.mpr hdig), if_pos hv]

lemma parseAuthority_eq_default (c : Char) (rest : List Char) (hc : c ≠ '[') :
    parseAuthority (c :: rest) =
      (let hp := splitFirst ':' (c :: rest)
       if hp.1 ≠ [] ∧ hp.1.all hostCharOk then
         let host := String.mk (hp.1.map Char.toLower)
         match hp.2 with
         | none => some (host, none)
         | some ds => (parsePort ds).map (fun p => (host, p))
       else none) := by
  unfold parseAuthority
  split
  · rename_i heq
    cases heq
  · rename_i rest2 heq
    cases heq
    exact absurd rfl hc
  · rfl

lemma validateDomain_gates_reduce (resolver : Resolver) (domain : String) (u : ParsedURL)
    (h1 : invalidChars.find? (fun c => domain.data.contains c) = none)
    (h2 : domain.data.any (fun c => c.toNat ≤ 0x1F || c.toNat = 0x7F) = false)
    (h3 : domain.data.contains '@' = false)
    (h4 : parseHttpsDomain domain = some u)
    (h5 : u.pathname = "/") (h6 : u.search = "") (h7 : u.hash = "") :
    validateDomain resolver domain =
      (if isIP u.hostname ≠ 0 then
        (if isPrivateOrReservedIP u.hostname then
          ⟨false, some ("Private or reserved IP address: " ++ u.hostname)⟩
        else ⟨true, none⟩)
      else if lowerStr u.hostname = "localhost" then
        ⟨false, some "localhost is not allowed"⟩
      else
        match resolver u.hostname with
        | .ok addresses =>
          match addresses.find? (fun a => isPrivateOrReservedIP a) with
          | some a =>
            ⟨false, some ("Domain " ++ u.hostname ++ " resolves to private/reserved IP: " ++ a)⟩
          | none => ⟨true, none⟩
        | .error code =>
          ⟨false, some ("DNS lookup failed for " ++ u.hostname ++ ": " ++ code)⟩) := by
  simp only [validateDomain, h1, h2, h3, h4, h5, h6, h7]
  simp

/-- C10: an explicit port is accepted and ignored by the policy: for a
hostname free of WHATWG-forbidden host code points and a digits-only port of
value at most 65535 (so that `https://h:p` parses), every syntactic gate
treats `h:p` exactly as `h`, the port is split off by URL parsing, and all
literal-IP, localhost and DNS checks run on the hostname alone — the
validation result equals that of the bare hostname. -/
theorem validateDomain_port_invariance (resolver : Resolver) (h ps : String)
    (hneh : h.data ≠ [])
    (hhost : ∀ c ∈ h.data, hostCharOk c = true)
    (hne : ps.data ≠ [])
    (hdig : ∀ c ∈ ps.data, c.isDigit = true)
    (hv : ps.data.foldl (fun a c => a * 10 + digitVal c) 0 ≤ 65535) :
    validateDomain resolver (h ++ ":" ++ ps) = validateDomain resolver h := by
  have hdata : (h ++ ":" ++ ps).data = h.data ++ ':' :: ps.data := by
    rw [data_append, data_append]
    simp [show (":".data) = [':'] from rfl]
  have hmemf : ∀ c : Char, hostCharOk c = false → c.isDigit = false → ¬(c = ':') →
      c ∉ (h ++ ":" ++ ps).data ∧ c ∉ h.data := by
    intro c hc hd hcc
    have hx1 : c ∉ h.data := not_mem_of_all hhost c hc
    have hx2 : c ∉ ps.data := not_mem_of_all hdig c hd
    refine ⟨?_, hx1⟩
    rw [hdata]
    simp only [List.mem_append, List.mem_cons, not_or]
    exact ⟨hx1, hcc, hx2⟩
  obtain ⟨hcA1, hcB1⟩ := hmemf '#' (by decide) (by decide) (by decide)
  obtain ⟨hcA2, hcB2⟩ := hmemf '?' (by decide) (by decide) (by decide)
  obtain ⟨hcA3, hcB3⟩ := hmemf '/' (by decide) (by decide) (by decide)
  obtain ⟨hcA4, hcB4⟩ := hmemf '\\' (by decide) (by decide) (by decide)
  obtain ⟨hcA5, hcB5⟩ := hmemf ' ' (by decide) (by decide) (by decide)
  obtain ⟨hcA6, hcB6⟩ := hmemf '\t' (by decide) (by decide) (by decide)
  obtain ⟨hcA7, hcB7⟩ := hmemf '\n' (by decide) (by decide) (by decide)
  obtain ⟨hcA8, hcB8⟩ := hmemf '\r' (by decide) (by decide) (by decide)
  obtain ⟨hcA9, hcB9⟩ := hmemf '@' (by decide) (by decide) (by decide)
  have hf1 : invalidChars.find? (fun c => (h ++ ":" ++ ps).data.contains c) = none := by
    apply List.find?_eq_none.mpr
    intro c hc hcont
    have hmemc : c ∈ (h ++ ":" ++ ps).data := by simpa using hcont
    fin_cases hc
    exacts [hcA1 hmemc, hcA2 hmemc, hcA3 hmemc, hcA4 hmemc, hcA5 hmemc, hcA6 hmemc,
      hcA7 hmemc, hcA8 hmemc]
  have hf2 : invalidChars.find? (fun c => h.data.contains c) = none := by
    apply List.find?_eq_none.mpr
    intro c hc hcont
    have hmemc : c ∈ h.data := by simpa using hcont
    fin_cases hc
    exacts [hcB1 hmemc, hcB2 hmemc, hcB3 hmemc, hcB4 hmemc, hcB5 hmemc, hcB6 hmemc,
      hcB7 hmemc, hcB8 hmemc]
  have hctrl1 : ((h ++ ":" ++ ps).data.any (fun c => c.toNat ≤ 0x1F || c.toNat = 0x7F)) = false := by
    rw [List.any_eq_false]
    intro x hx
    rw [hdata] at hx
    simp only [List.mem_append, List.mem_cons] at hx
    rcases hx with hx | hx | hx
    · simpa using hostCharOk_not_ctrl x (hhost x hx)
    · subst hx
      decide
    · simpa using digit_not_ctrl x (hdig x hx)
  have hctrl2 : (h.data.any (fun c => c.toNat ≤ 0x1F || c.toNat = 0x7F)) = false := by
    rw [List.any_eq_false]
    intro x hx
    simpa using hostCharOk_not_ctrl x (hhost x hx)
  have hat1 : (h ++ ":" ++ ps).data.contains '@' = false := by simpa using hcA9
  have hat2 : h.data.contains '@' = false := by simpa using hcB9
  have hcolon : (':' : Char) ∉ h.data := not_mem_of_all hhost ':' (by decide)
  have hsp1 : splitFirst ':' h.data = (h.data, none) := splitFirst_not_contains _ _ hcolon
  have hsp2 : splitFirst ':' (h.data ++ ':' :: ps.data) = (h.data, some ps.data) :=
    splitFirst_append_sep _ _ _ hcolon
  obtain ⟨c, rest, hhd⟩ : ∃ c rest, h.data = c :: rest := by
    cases hq : h.data with
    | nil => exact absurd hq hneh
    | cons c rest => exact ⟨c, rest, rfl⟩
  have hcb : c ≠ '[' := by
    have hcmem := hhost c (by rw [hhd]; exact List.mem_cons_self c rest)
    intro hcc
    rw [hcc] at hcmem
    exact absurd hcmem (by decide)
  have hpa_h : parseAuthority h.data = some (String.mk (h.data.map Char.toLower), none) := by
    rw [hhd, parseAuthority_eq_default c rest hcb, ← hhd]
    simp only [hsp1]
    rw [if_pos ⟨hneh, List.all_eq_true.mpr hhost⟩]
  have hpa_c : parseAuthority (h.data ++ ':' :: ps.data) =
      some (String.mk (h.data.map Char.toLower),
        some (ps.data.foldl (fun a c => a * 10 + digitVal c) 0)) := by
    rw [hhd, List.cons_append, parseAuthority_eq_default c (rest ++ ':' :: ps.data) hcb,
      ← List.cons_append, ← hhd]
    simp only [hsp2]
    rw [if_pos ⟨hneh, List.all_eq_true.mpr hhost⟩]
    simp only [parsePort_digits ps.data hne hdig hv]
    rfl
  have hPH_h : parseHttpsDomain h =
      some ⟨String.mk (h.data.map Char.toLower), none, "/", "", ""⟩ := by
    simp only [parseHttpsDomain, splitFirst_not_contains '#' h.data hcB1,
      splitFirst_not_contains '?' h.data hcB2,
      splitFirstPath_not_contains h.data hcB3 hcB4, hpa_h]
  have hPH_c : parseHttpsDomain (h ++ ":" ++ ps) =
      some ⟨String.mk (h.data.map Char.toLower),
        some (ps.data.foldl (fun a c => a * 10 + digitVal c) 0), "/", "", ""⟩ := by
    simp only [parseHttpsDomain, splitFirst_not_contains '#' (h ++ ":" ++ ps).data hcA1,
      splitFirst_not_contains '?' (h ++ ":" ++ ps).data hcA2,
      splitFirstPath_not_contains (h ++ ":" ++ ps).data hcA3 hcA4]
    rw [hdata, hpa_c]
  rw [validateDomain_gates_reduce resolver (h ++ ":" ++ ps)
      ⟨String.mk (h.data.map Char.toLower),
        some (ps.data.foldl (fun a c => a * 10 + digitVal c) 0), "/", "", ""⟩
      hf1 hctrl1 hat1 hPH_c rfl rfl rfl,
    validateDomain_gates_reduce resolver h
      ⟨String.mk (h.data.map Char.toLower), none, "/", "", ""⟩
      hf2 hctrl2 hat2 hPH_h rfl rfl rfl]

/-- C10 witness: appending port 8080 to a concrete hostname leaves the
validation result unchanged. -/
theorem validateDomain_port_invariance_witness :
    validateDomain demoResolver ("example.com" ++ ":" ++ "8080") =
      validateDomain demoResolver "example.com" :=
  validateDomain_port_invariance demoResolver "example.com" "8080" (by decide) (by decide)
    (by decide) (by decide) (by decide)
